import Mathlib

/-!
Verification of the SnapWright registry-mutation engine (src/unnamed/part_002).

Program text is modelled as `List Char`.  JavaScript string and regex
operations used by the source are embedded as executable Lean functions;
each definition carries a comment naming the source construct it ports.
Case conversion and regex character classes are modelled on the ASCII
range (the source only ever feeds ASCII identifiers and paths to them);
the multi-line flag semantics of the one multi-line regex in the source
is modelled with the line terminators '\n' and '\r'.
-/

/-- Program text: a JavaScript string, as its list of characters. -/
abbrev Str := List Char

/-- Characters of a Lean string literal, used to write concrete program text. -/
def strOf (s : String) : Str := s.data

/-- JS regex class \w = [A-Za-z0-9_] (ASCII). -/
def wordChar (c : Char) : Bool := c.isAlphanum || c == '_'

/-- JS regex class [A-Z], as used by classNameToPropertyCase. -/
def asciiUpper (c : Char) : Bool := c.isUpper

/-- JS toLowerCase restricted to ASCII letters (all the source ever lowercases). -/
def asciiToLower (c : Char) : Char := c.toLower

/-- JS regex class \s (whitespace, ASCII and Unicode members). -/
def jsSpace (c : Char) : Bool :=
  c == ' ' || c == '\t' || c == '\n' || c == '\r' || c == Char.ofNat 11 ||
  c == Char.ofNat 12 || c == Char.ofNat 0xa0 || c == Char.ofNat 0x1680 ||
  (Nat.ble 0x2000 c.toNat && Nat.ble c.toNat 0x200a) || c == Char.ofNat 0x2028 ||
  c == Char.ofNat 0x2029 || c == Char.ofNat 0x202f || c == Char.ofNat 0x205f ||
  c == Char.ofNat 0x3000 || c == Char.ofNat 0xfeff

/-- JS line terminators (for the multiline anchors and the dot class). -/
def lineTerm (c : Char) : Bool :=
  c == '\n' || c == '\r' || c == Char.ofNat 0x2028 || c == Char.ofNat 0x2029

/-- JS String.prototype.includes (substring containment). -/
def containsStr : Str → Str → Bool
  | [], pat => pat.isEmpty
  | c :: rest, pat => pat.isPrefixOf (c :: rest) || containsStr rest pat

/-- Tail-recursive scan behind subIdx?: the index of the first occurrence at or
after position i, if any. -/
def subIdxAux (pat : Str) : Nat → Str → Option Nat
  | i, [] => if pat.isEmpty then some i else none
  | i, c :: rest =>
    if pat.isPrefixOf (c :: rest) then some i else subIdxAux pat (i + 1) rest

/-- Index of the first occurrence of a substring, if any (JS indexOf when found). -/
def subIdx? (s pat : Str) : Option Nat := subIdxAux pat 0 s

/-- JS String.prototype.indexOf: first index of a substring, -1 when absent. -/
def jsIndexOf (s pat : Str) : Int :=
  match subIdx? s pat with
  | some n => (n : Int)
  | none => -1

/-- Tail-recursive scan behind lastSubIdx?: the index of the last occurrence,
carrying the position and the best hit so far. -/
def lastSubIdxAux (pat : Str) : Nat → Option Nat → Str → Option Nat
  | i, best, [] => if pat.isEmpty then some i else best
  | i, best, c :: rest =>
    lastSubIdxAux pat (i + 1) (if pat.isPrefixOf (c :: rest) then some i else best) rest

/-- Index of the last occurrence of a substring, if any. -/
def lastSubIdx? (s pat : Str) : Option Nat := lastSubIdxAux pat 0 none s

/-- JS String.prototype.lastIndexOf: last index of a substring, -1 when absent. -/
def jsLastIndexOf (s pat : Str) : Int :=
  match lastSubIdx? s pat with
  | some n => (n : Int)
  | none => -1

/-- JS String.prototype.trim. -/
def jsTrim (s : Str) : Str :=
  ((s.dropWhile jsSpace).reverse.dropWhile jsSpace).reverse

/-- JS split("\n"). -/
def splitNl (s : Str) : List Str := s.splitOn '\n'

/-- JS Array.prototype.join("\n"). -/
def joinNl (ls : List Str) : Str := List.intercalate ['\n'] ls

/-- JS Array.prototype.join("\n\n"). -/
def joinNl2 (ls : List Str) : Str := List.intercalate (strOf "\n\n") ls

/-- JS String.prototype.replace with a plain string pattern: first occurrence only. -/
def jsReplaceFirst : Str → Str → Str → Str
  | [], pat, rep => if pat.isEmpty then rep else []
  | c :: rest, pat, rep =>
    if pat.isPrefixOf (c :: rest) then rep ++ (c :: rest).drop pat.length
    else c :: jsReplaceFirst rest pat rep

/-- JS String.prototype.replace with a global single-character regex (the \\ -> / step). -/
def replaceAllChar (s : Str) (a b : Char) : Str :=
  s.map (fun c => if c == a then b else c)

example : containsStr (strOf "import x") (strOf "port") = true := by decide
example : subIdx? (strOf "abcabc") (strOf "bc") = some 1 := by decide
example : jsLastIndexOf (strOf "abcabc") (strOf "bc") = 4 := by decide
example : jsTrim (strOf "  a b\t") = strOf "a b" := by decide
example : splitNl (strOf "a\nb\n") = [strOf "a", strOf "b", []] := by decide
example : jsReplaceFirst (strOf ".page.ts") (strOf ".ts") [] = strOf ".page" := by decide

/-! ## Path utilities (Node path.posix, for the clean absolute paths the source builds) -/

/-- Node path.dirname (POSIX). -/
def dirname (p : Str) : Str :=
  match lastSubIdx? p ['/'] with
  | none => strOf "."
  | some 0 => strOf "/"
  | some i => p.take i

/-- Node path.basename (POSIX). -/
def baseName (p : Str) : Str :=
  match lastSubIdx? p ['/'] with
  | none => p
  | some i => p.drop (i + 1)

/-- Node path.join of a directory and an entry name. -/
def pathJoin (a b : Str) : Str :=
  if a.getLast? == some '/' then a ++ b else a ++ '/' :: b

/-- Path segments of an absolute POSIX path. -/
def segsOf (p : Str) : List Str := (p.splitOn '/').filter (fun s => !s.isEmpty)

/-- Drop the common prefix of two segment lists. -/
def dropCommon : List Str → List Str → List Str × List Str
  | a :: as, b :: bs => if a == b then dropCommon as bs else (a :: as, b :: bs)
  | as, bs => (as, bs)

/-- Node path.relative (POSIX) between two absolute paths. -/
def pathRelative (fromP toP : Str) : Str :=
  let p := dropCommon (segsOf fromP) (segsOf toP)
  List.intercalate ['/'] (p.1.map (fun _ => strOf "..") ++ p.2)

example : dirname (strOf "/a/b/c") = strOf "/a/b" := by decide
example : dirname (strOf "/a") = strOf "/" := by decide
example : dirname (strOf "/") = strOf "/" := by decide
example : baseName (strOf "/a/b/pf.ts") = strOf "pf.ts" := by decide
example : pathJoin (strOf "/") (strOf "a") = strOf "/a" := by decide
example : pathRelative (strOf "/r") (strOf "/r/login.ts") = strOf "login.ts" := by decide
example : pathRelative (strOf "/r/x") (strOf "/r/y/a.ts") = strOf "../y/a.ts" := by decide

/-! ## Regex scanners

Each JS regex the source applies is embedded as a deterministic scan.  For
every one of them the greedy sub-matches are followed by a character class
disjoint from the class just consumed, so the backtracking-free scan below
computes exactly the regex match. -/

/-- Strip a literal from the front of a string. -/
def stripLit (lit s : Str) : Option Str :=
  if lit.isPrefixOf s then some (s.drop lit.length) else none

/-- Greedy run of a character class: the run and the remainder. -/
def takeRun (p : Char → Bool) (s : Str) : Str × Str := (s.takeWhile p, s.dropWhile p)

theorem stripLit_length {lit s r : Str} (h : stripLit lit s = some r) :
    r.length = s.length - lit.length ∧ lit.length ≤ s.length := by
  unfold stripLit at h
  split at h
  · cases h
    refine ⟨List.length_drop _ _, ?_⟩
    next hp => exact (List.isPrefixOf_iff_prefix.mp hp).length_le
  · cases h

theorem takeRun_snd_length (p : Char → Bool) (s : Str) :
    (takeRun p s).2.length ≤ s.length := by
  simpa [takeRun] using (List.dropWhile_suffix (l := s) p).length_le

/-- One attempt of /export\s+class\s+(\w+)/ anchored at the current position,
returning the capture. -/
def matchExportClassAt? (s : Str) : Option Str :=
  match stripLit (strOf "export") s with
  | none => none
  | some r1 =>
    let t1 := takeRun jsSpace r1
    if t1.1.isEmpty then none else
    match stripLit (strOf "class") t1.2 with
    | none => none
    | some r2 =>
      let t2 := takeRun jsSpace r2
      if t2.1.isEmpty then none else
      let t3 := takeRun wordChar t2.2
      if t3.1.isEmpty then none else some t3.1

/-- First match of /export\s+class\s+(\w+)/ over the whole text (JS String.match,
capture group 1): the class-name extraction used throughout the source. -/
def matchExportClass? : Str → Option Str
  | [] => none
  | c :: rest =>
    match matchExportClassAt? (c :: rest) with
    | some w => some w
    | none => matchExportClass? rest

example : matchExportClass? (strOf "x\nexport  class  LoginPage extends B") =
    some (strOf "LoginPage") := by decide
example : matchExportClass? (strOf "class LoginPage") = none := by decide

/-- One attempt of /^import\s+.*$/m anchored at the current position (assumed to
be a line start): the match is the literal, the greedy whitespace run (which may
cross line ends, since \s contains them) and the rest of the line. -/
def importMatchAt? (s : Str) : Option (Str × Str) :=
  match stripLit (strOf "import") s with
  | none => none
  | some r1 =>
    let t1 := takeRun jsSpace r1
    if t1.1.isEmpty then none else
    let t2 := takeRun (fun c => !lineTerm c) t1.2
    some (strOf "import" ++ t1.1 ++ t2.1, t2.2)

/-- All matches of /^import\s+.*$/gm (extractExistingImports, part_002 line 1031).
The Boolean argument records whether the current position is a line start (the
multiline ^); after a match the scan resumes at the match end, as the g flag
does.  Structural recursion on a fuel counter kept strictly above the number of
characters left; every step consumes at least one character, so with the fuel
extractExistingImports supplies the scan never runs dry. -/
def extractImportsLoop : Nat → Bool → Str → List Str
  | 0, _, _ => []
  | _ + 1, _, [] => []
  | fuel + 1, atStart, c :: rest =>
    if atStart then
      match importMatchAt? (c :: rest) with
      | some (m, r) => m :: extractImportsLoop fuel false r
      | none => extractImportsLoop fuel (lineTerm c) rest
    else extractImportsLoop fuel (lineTerm c) rest

/-- Helper function to extract existing imports (part_002 lines 1031-1035). -/
def extractExistingImports (content : Str) : List Str :=
  extractImportsLoop (content.length + 1) true content

example : extractExistingImports
    (strOf "import \x7b A \x7d from \x27./a\x27;\nx\nimport \x7b B \x7d from \x27./b\x27;") =
    [strOf "import \x7b A \x7d from \x27./a\x27;", strOf "import \x7b B \x7d from \x27./b\x27;"] := by
  decide
example : extractExistingImports (strOf "x import a\n reimport b") = [] := by decide

/-- One attempt of /private\s+(_\w+):/ anchored at the current position:
capture and remainder after the match. -/
def propMatchAt? (s : Str) : Option (Str × Str) :=
  match stripLit (strOf "private") s with
  | none => none
  | some r1 =>
    let t1 := takeRun jsSpace r1
    if t1.1.isEmpty then none else
    match t1.2 with
    | '_' :: r2 =>
      let t2 := takeRun wordChar r2
      if t2.1.isEmpty then none else
      match t2.2 with
      | ':' :: r3 => some ('_' :: t2.1, r3)
      | _ => none
    | _ => none

/-- All captures of /private\s+(_\w+):/g (extractExistingProperties, part_002
lines 1038-1046).  Fuel-structural scan exactly as for the import regex. -/
def extractPropsLoop : Nat → Str → List Str
  | 0, _ => []
  | _ + 1, [] => []
  | fuel + 1, c :: rest =>
    match propMatchAt? (c :: rest) with
    | some (cap, r) => cap :: extractPropsLoop fuel r
    | none => extractPropsLoop fuel rest

/-- Helper function to extract existing properties (part_002 lines 1038-1046). -/
def extractExistingProperties (content : Str) : List Str :=
  extractPropsLoop (content.length + 1) content

example : extractExistingProperties
    (strOf "  private _globalPage: Page;\n  private static _instance: X;\n  private _loginPage: LoginPage;") =
    [strOf "_globalPage", strOf "_loginPage"] := by decide
example : extractExistingProperties (strOf "private m_x: T;") = [] := by decide

/-- One attempt of /(get\w+)\s*\([^)]*\)\s*:\s*CLS/ anchored at the current
position, returning the capture (the getter name). -/
def typedGetterAt? (cls : Str) (s : Str) : Option Str :=
  match stripLit (strOf "get") s with
  | none => none
  | some r1 =>
    let t1 := takeRun wordChar r1
    if t1.1.isEmpty then none else
    let t2 := takeRun jsSpace t1.2
    match t2.2 with
    | '(' :: r2 =>
      let t3 := takeRun (fun c => c != ')') r2
      match t3.2 with
      | ')' :: r3 =>
        let t4 := takeRun jsSpace r3
        match t4.2 with
        | ':' :: r4 =>
          let t5 := takeRun jsSpace r4
          if cls.isPrefixOf t5.2 then some (strOf "get" ++ t1.1) else none
        | _ => none
      | _ => none
    | _ => none

/-- First capture of /(get\w+)\s*\([^)]*\)\s*:\s*CLS/g over the text: the
typed-getter detection of detectCircularReference (part_002 lines 1932-1943;
the source takes the first match and re-extracts /(get\w+)/ from it, which is
the same name). -/
def findTypedGetter? : Str → Str → Option Str
  | [], _ => none
  | c :: rest, cls =>
    match typedGetterAt? cls (c :: rest) with
    | some g => some g
    | none => findTypedGetter? rest cls

example : findTypedGetter? (strOf "  public getFoo(page?: Page): Foo \x7b") (strOf "Foo") =
    some (strOf "getFoo") := by decide
example : findTypedGetter? (strOf "budgetFoo(): Bar") (strOf "Foo") = none := by decide
example : findTypedGetter? (strOf "getBar(x): Foo ...") (strOf "Foo") =
    some (strOf "getBar") := by decide

/-- Case-insensitive prefix test on ASCII (the i flag of the convention regex). -/
def lowerPrefixOf : Str → Str → Bool
  | [], _ => true
  | _ :: _, [] => false
  | a :: as, b :: bs => (asciiToLower a == asciiToLower b) && lowerPrefixOf as bs

/-- One attempt of /(getCLS)\s*\(/i anchored at the current position,
returning the capture in its original case. -/
def convGetterAt? (cls : Str) (s : Str) : Option Str :=
  let pat := strOf "get" ++ cls
  if lowerPrefixOf pat s then
    let t := takeRun jsSpace (s.drop pat.length)
    match t.2 with
    | '(' :: _ => some (s.take pat.length)
    | _ => none
  else none

/-- First capture of /(getCLS)\s*\(/i: the convention-based getter detection of
detectCircularReference (part_002 lines 1947-1956). -/
def findConvGetter? : Str → Str → Option Str
  | [], _ => none
  | c :: rest, cls =>
    match convGetterAt? cls (c :: rest) with
    | some g => some g
    | none => findConvGetter? rest cls

example : findConvGetter? (strOf "x budgetFoo()") (strOf "Foo") = some (strOf "getFoo") := by
  decide
example : findConvGetter? (strOf "x GETFOO ()") (strOf "Foo") = some (strOf "GETFOO") := by
  decide
example : findConvGetter? (strOf "getFood()") (strOf "Foo") = none := by decide

/-- Occurrence of \bCLS\b inside a brace segment whose outer neighbours are the
braces themselves (so the segment edges are word boundaries).  The Boolean
argument tells whether the character just before the current position is a
word character. -/
def bindingWordOccur (cls : Str) : Bool → Str → Bool
  | _, [] => false
  | prevW, c :: rest =>
    (!prevW && cls.isPrefixOf (c :: rest) &&
      (match (c :: rest : Str).drop cls.length with
       | d :: _ => !wordChar d
       | [] => true)) ||
    bindingWordOccur cls (wordChar c) rest

/-- One attempt of /import\s+\{[^}]*\bCLS\b[^}]*\}\s+from\s+['"][^'"]*/ anchored
at the current position.  Both [^}]* runs exclude the closing brace, so the
whole binding segment is the text up to the first brace after the opening one. -/
def circImportAt (cls : Str) (s : Str) : Bool :=
  match stripLit (strOf "import") s with
  | none => false
  | some r1 =>
    let t1 := takeRun jsSpace r1
    if t1.1.isEmpty then false else
    match t1.2 with
    | lb :: r2 =>
      if lb != Char.ofNat 123 then false else
      let t2 := takeRun (fun c => c != Char.ofNat 125) r2
      match t2.2 with
      | _ :: r3 =>
        if !bindingWordOccur cls false t2.1 then false else
        let t3 := takeRun jsSpace r3
        if t3.1.isEmpty then false else
        match stripLit (strOf "from") t3.2 with
        | none => false
        | some r4 =>
          let t4 := takeRun jsSpace r4
          if t4.1.isEmpty then false else
          match t4.2 with
          | q :: _ => q == Char.ofNat 39 || q == '"'
          | [] => false
      | [] => false
    | [] => false

/-- The import test of the circular-reference checks (part_002 lines 1921-1925):
does /import\s+\{[^}]*\bCLS\b[^}]*\}\s+from\s+['"][^'"]*/ match anywhere. -/
def hasCircularImport : Str → Str → Bool
  | [], _ => false
  | c :: rest, cls => circImportAt cls (c :: rest) || hasCircularImport rest cls

example : hasCircularImport (strOf "import \x7b A, Foo \x7d from \x27./f\x27;") (strOf "Foo") =
    true := by decide
example : hasCircularImport (strOf "import \x7b Food \x7d from \x27./f\x27;") (strOf "Foo") =
    false := by decide
example : hasCircularImport (strOf "import Foo from \x27./f\x27;") (strOf "Foo") = false := by
  decide

/-! ## Configuration (getExtensionConfig, part_002 lines 36-70)

The source reads these from the host settings store with the defaults below;
the model passes the record explicitly.  Fields the claims never touch
(templates, validation patterns) are elided. -/

structure ExtensionConfig where
  pageObjectExt : Str
  pageFactoryExt : Str
  typescriptExt : Str
  classSuffix : Str
  propertyPref : Str
  fileNameCase : Str
  importDefaultPref : Str
  useRelativePaths : Bool
deriving DecidableEq

/-- The source defaults: .page.ts / .ts / .ts / Page / _ / camelCase / ./ / true. -/
def defaultConfig : ExtensionConfig :=
  ⟨strOf ".page.ts", strOf ".ts", strOf ".ts", strOf "Page", strOf "_",
   strOf "camelCase", strOf "./", true⟩

/-- charAt(0).toLowerCase() + slice(1). -/
def lowerFirst : Str → Str
  | [] => []
  | c :: rest => asciiToLower c :: rest

/-- baseCase.replace(/([A-Z])/g, sep + "$1").toLowerCase(): a separator is
inserted before every ASCII capital, then everything is lower-cased. -/
def expandCase (sep : Char) (s : Str) : Str :=
  (s.flatMap (fun c => if asciiUpper c then [sep, c] else [c])).map asciiToLower

/-- classNameToPropertyCase (part_002 lines 1145-1158). -/
def classNameToPropertyCase (cfg : ExtensionConfig) (className : Str) : Str :=
  let baseCase := lowerFirst className
  if cfg.fileNameCase == strOf "kebab-case" then expandCase '-' baseCase
  else if cfg.fileNameCase == strOf "snake_case" then expandCase '_' baseCase
  else baseCase

example : classNameToPropertyCase defaultConfig (strOf "LoginPage") = strOf "loginPage" := by
  decide
example :
    classNameToPropertyCase ⟨strOf ".page.ts", strOf ".ts", strOf ".ts", strOf "Page",
      strOf "_", strOf "kebab-case", strOf "./", true⟩ (strOf "LoginPage") =
    strOf "login-page" := by decide

/-! ## The flat file store used by the content-mutating functions

fs.readFileSync / fs.writeFileSync over a path-to-content map; a missing
binding models a read that throws. -/

/-- File store: association list from absolute path to content. -/
abbrev FSMap := List (Str × Str)

/-- fs.readFileSync: none models the call throwing. -/
def readFile? (fs : FSMap) (p : Str) : Option Str :=
  (fs.find? (fun e => e.1 == p)).map (·.2)

/-- fs.writeFileSync: replace the binding, or create it. -/
def writeFile (fs : FSMap) (p c : Str) : FSMap :=
  if fs.any (fun e => e.1 == p) then fs.map (fun e => if e.1 == p then (p, c) else e)
  else fs ++ [(p, c)]

/-! ## Fragment generation inside updatePageFactory (part_002 lines 875-928) -/

/-- One entry of the selectedFiles array updatePageFactory receives: a
quick-pick item whose label is the filename-derived fallback name and whose
description is the absolute file path. -/
structure QuickFile where
  label : Str
  description : Str
deriving DecidableEq

/-- Class-name resolution (lines 877-879): first /export\s+class\s+(\w+)/
capture of the candidate file content, else the quick-pick label. -/
def resolveClassName (fileContent lbl : Str) : Str :=
  (matchExportClass? fileContent).getD lbl

/-- The relative import path (lines 881-895): path.relative from the registry
directory, backslashes to slashes, first occurrence of the typescript extension
removed, and the configured prefix when relative paths are configured and the
path does not already start with a dot. -/
def mkImportPath (cfg : ExtensionConfig) (pfPath fileDesc : Str) : Str :=
  let relativePath := pathRelative (dirname pfPath) fileDesc
  let importPath :=
    jsReplaceFirst (replaceAllChar relativePath (Char.ofNat 92) '/') cfg.typescriptExt []
  if cfg.useRelativePaths then
    if ['.'].isPrefixOf importPath then importPath
    else cfg.importDefaultPref ++ importPath
  else importPath

/-- The generated import statement (line 897). -/
def mkImportStatement (cfg : ExtensionConfig) (pfPath fileDesc className : Str) : Str :=
  strOf "import \x7b " ++ className ++ strOf " \x7d from \x27" ++
    mkImportPath cfg pfPath fileDesc ++ strOf "\x27;"

/-- The generated field name (lines 898-900). -/
def mkPropertyName (cfg : ExtensionConfig) (className : Str) : Str :=
  cfg.propertyPref ++ classNameToPropertyCase cfg className

/-- The accessor name used by the getter and export fragments: get + className. -/
def mkGetterName (className : Str) : Str := strOf "get" ++ className

/-- The generated private field declaration (line 919). -/
def mkPropertyFragment (propertyName className : Str) : Str :=
  strOf "  private " ++ propertyName ++ strOf ": " ++ className ++ strOf ";"

/-- The generated accessor body (lines 920-924). -/
def mkGetterFragment (propertyName className : Str) : Str :=
  strOf "  public " ++ mkGetterName className ++ strOf "(page?: Page): " ++ className ++
    strOf " \x7b\n    this.ensurePageSet(page);\n    if (!this." ++ propertyName ++
    strOf ") this." ++ propertyName ++ strOf " = new " ++ className ++
    strOf "();\n    return this." ++ propertyName ++ strOf ";\n  \x7d"

/-- The generated module-level export line (lines 925-927). -/
def mkExportLine (className : Str) : Str :=
  strOf "export const " ++ mkGetterName className ++ strOf " = PageFactory.instance." ++
    mkGetterName className ++ strOf ";"

/-- The duplicate check of updatePageFactory (lines 903-916): the exact
generated import statement already listed, or some extracted import containing
the substring "\x7b className \x7d", or the field name among the extracted
private-field names. -/
def candidateDup (cfg : ExtensionConfig) (content pfPath : Str) (f : QuickFile)
    (fc : Str) : Bool :=
  let className := resolveClassName fc f.label
  let stmt := mkImportStatement cfg pfPath f.description className
  let propertyName := mkPropertyName cfg className
  let existingImports := extractExistingImports content
  (existingImports.contains stmt ||
    existingImports.any (fun imp =>
      containsStr imp (strOf "\x7b " ++ className ++ strOf " \x7d"))) ||
  (extractExistingProperties content).contains propertyName

/-- The four staged fragment lists and the skipped class names accumulated by
the candidate loop of updatePageFactory (lines 869-928). -/
structure StagedFragments where
  imports : List Str
  properties : List Str
  getters : List Str
  exportsL : List Str
  skipped : List Str
deriving DecidableEq

/-- The candidate loop of updatePageFactory (lines 875-928): per candidate,
read its file (a failing read throws out of the whole operation), resolve the
class name, run the duplicate check against the sets extracted from the registry
text, and either record the class as skipped or stage its four fragments. -/
def processCandidates (cfg : ExtensionConfig) (fs : FSMap) (pfPath content : Str) :
    List QuickFile → Option StagedFragments
  | [] => some ⟨[], [], [], [], []⟩
  | f :: rest =>
    match readFile? fs f.description with
    | none => none
    | some fc =>
      match processCandidates cfg fs pfPath content rest with
      | none => none
      | some tl =>
        let className := resolveClassName fc f.label
        if candidateDup cfg content pfPath f fc then
          some ⟨tl.imports, tl.properties, tl.getters, tl.exportsL, className :: tl.skipped⟩
        else
          let propertyName := mkPropertyName cfg className
          some ⟨mkImportStatement cfg pfPath f.description className :: tl.imports,
                mkPropertyFragment propertyName className :: tl.properties,
                mkGetterFragment propertyName className :: tl.getters,
                mkExportLine className :: tl.exportsL,
                tl.skipped⟩

/-- findLastImportIndex (part_002 lines 1049-1060): for every line whose trimmed
text starts with "import ", remember content.indexOf(line) + line.length + 1;
the last such value wins, -1 when no line qualifies. -/
def findLastImportIndex (content : Str) : Int :=
  (splitNl content).foldl
    (fun acc line =>
      if (strOf "import ").isPrefixOf (jsTrim line) then
        jsIndexOf content line + (line.length : Int) + 1
      else acc)
    (-1)

/-- The import splice (lines 947-958). -/
def spliceImports (content : Str) (imps : List Str) : Str :=
  if imps.isEmpty then content
  else
    let idx := findLastImportIndex content
    if idx != -1 then
      content.take idx.toNat ++ joinNl imps ++ '\n' :: content.drop idx.toNat
    else joinNl imps ++ strOf "\n\n" ++ content

/-- The anchor search of the property splice (lines 963-980): the last line
whose trimmed text contains "private _globalPage: Page;", and the last line
whose trimmed text starts with "private _" without containing "_globalPage" or
"_instance". -/
def findPropertyAnchors (lines : List Str) : Int × Int :=
  lines.enum.foldl
    (fun acc p =>
      let line := jsTrim p.2
      ((if containsStr line (strOf "private _globalPage: Page;") then (p.1 : Int) else acc.1),
       (if (strOf "private _").isPrefixOf line && !containsStr line (strOf "_globalPage") &&
           !containsStr line (strOf "_instance") then (p.1 : Int) else acc.2)))
    (-1, -1)

/-- The property splice (lines 960-991): after the last existing page-object
field, else after the _globalPage anchor with a blank separator line, else
nowhere; the text is rejoined from its lines in every case. -/
def spliceProperties (content : Str) (props : List Str) : Str :=
  if props.isEmpty then content
  else
    let lines := splitNl content
    let a := findPropertyAnchors lines
    let lines2 :=
      if a.2 != -1 then
        lines.take (a.2.toNat + 1) ++ props ++ lines.drop (a.2.toNat + 1)
      else if a.1 != -1 then
        lines.take (a.1.toNat + 1) ++ ([] :: props) ++ lines.drop (a.1.toNat + 1)
      else lines
    joinNl lines2

/-- The placeholder comment the getter splice anchors on (line 996). -/
def placeholderComment : Str :=
  strOf "// Page Object class properties will be added here"

/-- The getter splice (lines 993-1011): before the placeholder comment, else
before the last closing brace, else nowhere. -/
def spliceGetters (content : Str) (gets : List Str) : Str :=
  if gets.isEmpty then content
  else
    let ci := jsIndexOf content placeholderComment
    if ci != -1 then
      content.take ci.toNat ++ joinNl2 gets ++ strOf "\n\n" ++ content.drop ci.toNat
    else
      let bi := jsLastIndexOf content [Char.ofNat 125]
      if bi != -1 then
        content.take bi.toNat ++ joinNl gets ++ '\n' :: content.drop bi.toNat
      else content

/-- The export append (lines 1013-1016). -/
def appendExports (content : Str) (exps : List Str) : Str :=
  if exps.isEmpty then content else content ++ '\n' :: joinNl exps

/-- Result of updatePageFactory: the file store after the call, the skipped
class names, the number of classes added, and the file writes performed (path
and full written content, in order). -/
structure UPFResult where
  fsOut : FSMap
  skipped : List Str
  addedCount : Nat
  writes : List (Str × Str)
deriving DecidableEq

/-- updatePageFactory (part_002 lines 858-1028).  none models the call throwing
(registry or candidate file unreadable).  The UI notifications and the editor
opening at the end have no effect on the store and are elided. -/
def updatePageFactory (cfg : ExtensionConfig) (fs : FSMap) (pfPath : Str)
    (selectedFiles : List QuickFile) : Option UPFResult :=
  match readFile? fs pfPath with
  | none => none
  | some content =>
    match processCandidates cfg fs pfPath content selectedFiles with
    | none => none
    | some st =>
      if st.imports.isEmpty then some ⟨fs, st.skipped, 0, []⟩
      else
        let c1 := spliceImports content st.imports
        let c2 := spliceProperties c1 st.properties
        let c3 := spliceGetters c2 st.getters
        let c4 := appendExports c3 st.exportsL
        some ⟨writeFile fs pfPath c4, st.skipped, st.imports.length, [(pfPath, c4)]⟩

/-- The default registry template of generatePageFactoryTemplate (part_002
lines 800-856); the custom-template configuration defaults to empty, so this
is the text the source writes for a new registry. -/
def generatePageFactoryTemplate : Str :=
  strOf "import \x7b type Page \x7d from \"@playwright/test\";\n\n/**\n" ++
  strOf " * PageFactory - Singleton class for managing Page Object instances\n" ++
  strOf " * Generated by SnapWright\n */\nclass PageFactory \x7b\n" ++
  strOf "  private static _instance: PageFactory;\n  private _globalPage: Page;\n\n" ++
  strOf "  private constructor() \x7b\x7d\n\n  private static setInstance() \x7b\n" ++
  strOf "    PageFactory._instance = new PageFactory();\n  \x7d\n\n" ++
  strOf "  public static get instance() \x7b\n" ++
  strOf "    if (!PageFactory._instance) PageFactory.setInstance();\n\n" ++
  strOf "    return PageFactory._instance;\n  \x7d\n\n  public setPage(page: Page) \x7b\n" ++
  strOf "    this._globalPage = page;\n  \x7d\n\n  public get page(): Page \x7b\n" ++
  strOf "    if (!this._globalPage)\n" ++
  strOf "      throw new Error(\"Page not set. Use setPage(page) first.\");\n\n" ++
  strOf "    return this._globalPage;\n  \x7d\n\n" ++
  strOf "  private ensurePageSet(page?: Page): void \x7b\n" ++
  strOf "    if (!this._globalPage) \x7b\n      if (!page)\n" ++
  strOf "        throw new Error(\"Page not set. Use setPage(page) first.\");\n" ++
  strOf "      this.setPage(page);\n    \x7d\n  \x7d\n\n" ++
  strOf "  // Page Object class properties will be added here\n\x7d\n\n" ++
  strOf "export const pageFactory = PageFactory.instance;\n" ++
  strOf "export const setPage = PageFactory.instance.setPage;\n" ++
  strOf "export const page = PageFactory.instance.page;\n"

/-- detectCircularReference (part_002 lines 1899-1962).  Reads the registry and
the candidate file (a failing read is caught and yields null), extracts the
candidate class name, requires the registry to import it, then reports the
first typed getter returning it, else the first convention-named getter. -/
def detectCircularReference (fs : FSMap) (currentFilePath pageFactoryPath : Str) :
    Option Str :=
  match readFile? fs pageFactoryPath with
  | none => none
  | some pageFactoryContent =>
    match readFile? fs currentFilePath with
    | none => none
    | some currentFileContent =>
      match matchExportClass? currentFileContent with
      | none => none
      | some currentClassName =>
        if !hasCircularImport pageFactoryContent currentClassName then none
        else
          match findTypedGetter? pageFactoryContent currentClassName with
          | some g => some g
          | none => findConvGetter? pageFactoryContent currentClassName

/-! ## The directory tree used by the walking functions

fs.readdirSync / fs.statSync over a mutual inductive tree; a deniedDir models
a directory whose readdirSync throws (permission denied), a file with no
content models a file whose readFileSync throws. -/

mutual
inductive FSEntry where
  | file (name : Str) (content : Option Str)
  | dir (name : Str) (entries : FSEntries)
  | deniedDir (name : Str)
inductive FSEntries where
  | nil
  | cons (e : FSEntry) (es : FSEntries)
end

/-- The entry name fs.readdirSync reports. -/
def entryName : FSEntry → Str
  | .file n _ => n
  | .dir n _ => n
  | .deniedDir n => n

mutual
def FSEntries.names : FSEntries → List Str
  | .nil => []
  | .cons e es => entryName e :: es.names
end

/-- find? over the entries of a directory. -/
def FSEntries.find? (p : FSEntry → Bool) : FSEntries → Option FSEntry
  | .nil => none
  | .cons e es => if p e then some e else es.find? p

/-- Resolve a segment path to the entry list of a directory; none models
readdirSync throwing there (missing, not a directory, or permission denied). -/
def resolveEntries? : FSEntries → List Str → Option FSEntries
  | es, [] => some es
  | es, seg :: rest =>
    match es.find? (fun e => entryName e == seg) with
    | some (.dir _ sub) => resolveEntries? sub rest
    | _ => none

/-- readdirSync through the tree rooted at "/": the entry names of a directory
given by absolute path, none when the call throws. -/
def readdirNames? (root : FSEntries) (p : Str) : Option (List Str) :=
  (resolveEntries? root (segsOf p)).map FSEntries.names

/-- isPageFactoryFile (part_002 lines 718-731): content signatures when the file
is readable, basename fallback when reading throws. -/
def isPageFactoryFile (name : Str) (content : Option Str) : Bool :=
  match content with
  | some c =>
    containsStr c (strOf "class PageFactory") ||
    containsStr c (strOf "PageFactory.instance") ||
    containsStr c (strOf "export const pageFactory")
  | none => containsStr name (strOf "PageFactory")

/-- The file filter of findTSFiles (lines 742-753). -/
def tsFileKeep (cfg : ExtensionConfig) (name : Str) (content : Option Str) : Bool :=
  cfg.typescriptExt.isSuffixOf name && !isPageFactoryFile name content &&
  (cfg.pageObjectExt.isSuffixOf name ||
    (if !containsStr cfg.pageObjectExt (strOf ".") then true
     else !containsStr name (jsReplaceFirst cfg.pageObjectExt cfg.typescriptExt [])))

mutual
/-- The walkDir of findTSFiles (lines 733-758) on one entry: every directory is
entered (nothing is skipped), and a directory whose readdirSync throws aborts
the whole walk, since the source wraps it in no try/catch. -/
def findTSWalkEntry (cfg : ExtensionConfig) : Str → FSEntry → Option (List Str)
  | cur, .file name content =>
    some (if tsFileKeep cfg name content then [pathJoin cur name] else [])
  | cur, .dir name sub => findTSWalkList cfg (pathJoin cur name) sub
  | _, .deniedDir _ => none
def findTSWalkList (cfg : ExtensionConfig) : Str → FSEntries → Option (List Str)
  | _, .nil => some []
  | cur, .cons e es =>
    match findTSWalkEntry cfg cur e with
    | none => none
    | some a =>
      match findTSWalkList cfg cur es with
      | none => none
      | some b => some (a ++ b)
end

/-- findTSFiles (part_002 lines 714-762) run on the tree of dirPath. -/
def findTSFiles (cfg : ExtensionConfig) (dirPath : Str) (entries : FSEntries) :
    Option (List Str) :=
  findTSWalkList cfg dirPath entries

/-- The filename test of findPageFactory and of the nesting checks: the name
contains "PageFactory" and ends with the configured registry extension. -/
def pfNameMatch (cfg : ExtensionConfig) (name : Str) : Bool :=
  containsStr name (strOf "PageFactory") && cfg.pageFactoryExt.isSuffixOf name

/-- The directory-skip test of findPageFactory and of the downward nesting walk:
entries starting with '.' and the dependency cache. -/
def skipDirName (name : Str) : Bool :=
  (match name with | c :: _ => c == '.' | [] => false) || name == strOf "node_modules"

mutual
/-- The walkDir of findPageFactory (lines 770-795) on one entry: readable
non-hidden, non-node_modules directories are entered; a directory whose
readdirSync throws contributes nothing (the walk swallows the error); any other
entry is kept when its name matches. -/
def findPFWalkEntry (cfg : ExtensionConfig) : Str → FSEntry → List Str
  | cur, .file name _ => if pfNameMatch cfg name then [pathJoin cur name] else []
  | cur, .dir name sub =>
    if !skipDirName name then findPFWalkList cfg (pathJoin cur name) sub
    else if pfNameMatch cfg name then [pathJoin cur name] else []
  | cur, .deniedDir name =>
    if !skipDirName name then []
    else if pfNameMatch cfg name then [pathJoin cur name] else []
def findPFWalkList (cfg : ExtensionConfig) : Str → FSEntries → List Str
  | _, .nil => []
  | cur, .cons e es => findPFWalkEntry cfg cur e ++ findPFWalkList cfg cur es
end

/-- findPageFactory (part_002 lines 764-798): the first name-matched file of the
walk, if any.  The walk swallows every per-directory read error, so the
function itself never throws. -/
def findPageFactory (cfg : ExtensionConfig) (workspacePath : Str)
    (entries : FSEntries) : Option Str :=
  (findPFWalkList cfg workspacePath entries).head?

/-- The upward half of checkForPageFactoryNesting (lines 161-182): from the
parent directory of the selected path, look in each ancestor directory for an
entry whose name matches, walking up until the root.  The readdirSync here is
under no try/catch, so a throwing ancestor read (none from readdirNames?)
aborts the whole check.  Structural recursion on a fuel counter that the caller
seeds above the path length; dirname strictly shortens a clean absolute path,
so the fuel never runs dry before the root test stops the loop. -/
def upwardScan (cfg : ExtensionConfig) (root : FSEntries) :
    Nat → Str → Option (Bool × Option Str)
  | 0, _ => some (false, none)
  | fuel + 1, cur =>
    if cur == dirname cur then some (false, none)
    else
      match readdirNames? root cur with
      | none => none
      | some items =>
        match items.find? (fun item => pfNameMatch cfg item) with
        | some pf => some (true, some (pathJoin cur pf))
        | none => upwardScan cfg root fuel (dirname cur)

mutual
/-- The walkDown of checkForPageFactoryNesting (lines 188-225) over the entries
of one directory.  Files are ignored; hidden and node_modules directories are
skipped; for any other child directory its entries are listed (a throwing list
aborts this invocation, which the caller sees as not-found, exactly as the
source catch does), searched for a matching name, then recursed into. -/
def nestWalkEntries (cfg : ExtensionConfig) : Str → FSEntries → Option Str
  | _, .nil => none
  | cur, .cons (.file _ _) es => nestWalkEntries cfg cur es
  | cur, .cons (.deniedDir name) es =>
    if skipDirName name then nestWalkEntries cfg cur es else none
  | cur, .cons (.dir name sub) es =>
    if skipDirName name then nestWalkEntries cfg cur es
    else
      match sub.find? (fun e => pfNameMatch cfg (entryName e)) with
      | some pfe => some (pathJoin (pathJoin cur name) (entryName pfe))
      | none =>
        match nestWalkEntries cfg (pathJoin cur name) sub with
        | some r => some r
        | none => nestWalkEntries cfg cur es
end

/-- The result record of checkForPageFactoryNesting (lines 153-158). -/
structure NestingResult where
  hasParentPageFactory : Bool
  hasChildPageFactory : Bool
  parentPath : Option Str
  childPath : Option Str
deriving DecidableEq

/-- checkForPageFactoryNesting (part_002 lines 152-235).  none models the
function throwing out of the uncaught ancestor readdirSync; the downward walk
swallows its errors, and a selected path whose own listing throws yields
not-found, as the walkDown catch does. -/
def checkForPageFactoryNesting (cfg : ExtensionConfig) (root : FSEntries)
    (selectedPath : Str) : Option NestingResult :=
  match upwardScan cfg root (selectedPath.length + 1) (dirname selectedPath) with
  | none => none
  | some up =>
    let childRes :=
      match resolveEntries? root (segsOf selectedPath) with
      | none => none
      | some es => nestWalkEntries cfg selectedPath es
    some ⟨up.1, childRes.isSome, up.2, childRes⟩

/-- A remembered registry path (SavedPageFactoryPath). -/
structure SavedPath where
  path : Str
  label : Str
  lastUsed : Nat
deriving DecidableEq

/-- addPageFactoryPath (part_002 lines 2104-2126), with the persisted list and
the clock passed explicitly.  The stored label is label || basename(dirname
(filePath)): an omitted or empty label always produces the parent-directory
default, and an existing entry is replaced wholesale. -/
def addPageFactoryPath (nowMs : Nat) (paths : List SavedPath) (filePath : Str)
    (lbl : Option Str) : List SavedPath :=
  let entry : SavedPath :=
    ⟨filePath,
     (match lbl with
      | some l => if l.isEmpty then baseName (dirname filePath) else l
      | none => baseName (dirname filePath)),
     nowMs⟩
  match paths.findIdx? (fun p => p.path == filePath) with
  | some i => paths.set i entry
  | none => paths ++ [entry]

/-! ## Characterization of the candidate loop

The staged fragments and skip list computed by processCandidates, expressed
as filters over the caller-supplied candidate list. -/

/-- The class name a candidate resolves to, when its file is readable. -/
def resolvedName? (fs : FSMap) (f : QuickFile) : Option Str :=
  (readFile? fs f.description).map (fun fc => resolveClassName fc f.label)

/-- The skip-list contribution of one candidate. -/
def skippedNameOf (cfg : ExtensionConfig) (fs : FSMap) (pfPath content : Str)
    (f : QuickFile) : Option Str :=
  match readFile? fs f.description with
  | none => none
  | some fc =>
    if candidateDup cfg content pfPath f fc then some (resolveClassName fc f.label)
    else none

/-- The survivor contribution of one candidate: its resolved class name when it
passes the duplicate check. -/
def survivorNameOf (cfg : ExtensionConfig) (fs : FSMap) (pfPath content : Str)
    (f : QuickFile) : Option Str :=
  match readFile? fs f.description with
  | none => none
  | some fc =>
    if candidateDup cfg content pfPath f fc then none
    else some (resolveClassName fc f.label)

/-- The fragments the loop stages, as functions of the complete candidate list:
one import statement, field declaration, accessor body and export line per
surviving candidate, in candidate order. -/
def stagedOf (cfg : ExtensionConfig) (fs : FSMap) (pfPath content : Str)
    (files : List QuickFile) : StagedFragments :=
  ⟨files.filterMap (fun f => (survivorNameOf cfg fs pfPath content f).map
      (fun n => mkImportStatement cfg pfPath f.description n)),
   files.filterMap (fun f => (survivorNameOf cfg fs pfPath content f).map
      (fun n => mkPropertyFragment (mkPropertyName cfg n) n)),
   files.filterMap (fun f => (survivorNameOf cfg fs pfPath content f).map
      (fun n => mkGetterFragment (mkPropertyName cfg n) n)),
   files.filterMap (fun f => (survivorNameOf cfg fs pfPath content f).map
      (fun n => mkExportLine n)),
   files.filterMap (skippedNameOf cfg fs pfPath content)⟩

/-- The text updatePageFactory writes, assembled from the registry text and the
complete staged fragment lists: import splice, then property splice, then
getter splice, then export append. -/
def assembledContent (content : Str) (st : StagedFragments) : Str :=
  appendExports (spliceGetters (spliceProperties (spliceImports content st.imports)
    st.properties) st.getters) st.exportsL

theorem processCandidates_eq {cfg : ExtensionConfig} {fs : FSMap}
    {pfPath content : Str} {files : List QuickFile} {st : StagedFragments}
    (h : processCandidates cfg fs pfPath content files = some st) :
    st = stagedOf cfg fs pfPath content files := by
  induction files generalizing st with
  | nil =>
    simp only [processCandidates, Option.some.injEq] at h
    subst h
    simp [stagedOf]
  | cons f rest ih =>
    cases hr : readFile? fs f.description with
    | none => simp [processCandidates, hr] at h
    | some fc =>
      cases hp : processCandidates cfg fs pfPath content rest with
      | none => simp [processCandidates, hr, hp] at h
      | some tl =>
        have htl := ih hp
        subst htl
        simp only [processCandidates, hr, hp, Option.some.injEq] at h
        split at h
        next hd =>
          injection h with h
          subst h
          simp [stagedOf, skippedNameOf, survivorNameOf, hr, hd]
        next hd =>
          injection h with h
          subst h
          simp [stagedOf, skippedNameOf, survivorNameOf, hr, hd]

theorem stagedOf_imports_eq_nil_of_allDup {cfg : ExtensionConfig} {fs : FSMap}
    {pfPath content : Str} {files : List QuickFile}
    (hall : ∀ f ∈ files, ∀ fc, readFile? fs f.description = some fc →
      candidateDup cfg content pfPath f fc = true) :
    (stagedOf cfg fs pfPath content files).imports = [] := by
  simp only [stagedOf]
  rw [List.filterMap_eq_nil_iff]
  intro f hf
  unfold survivorNameOf
  cases hr : readFile? fs f.description with
  | none => rfl
  | some fc => simp [hall f hf fc hr]

theorem stagedOf_imports_ne_nil_of_survivor {cfg : ExtensionConfig} {fs : FSMap}
    {pfPath content : Str} {files : List QuickFile}
    (hs : ∃ f ∈ files, ∃ fc, readFile? fs f.description = some fc ∧
      candidateDup cfg content pfPath f fc = false) :
    (stagedOf cfg fs pfPath content files).imports ≠ [] := by
  obtain ⟨f, hf, fc, hr, hd⟩ := hs
  simp only [stagedOf]
  intro hnil
  rw [List.filterMap_eq_nil_iff] at hnil
  have := hnil f hf
  rw [survivorNameOf, hr] at this
  simp [hd] at this

/-- C2.  All-or-nothing mutation of updatePageFactory: with the registry
readable and the call returning (not throwing), a batch in which every
candidate fails the duplicate check leaves the store untouched with no write
performed; a batch with at least one surviving candidate performs exactly one
write, of the registry path, whose content is assembled from the registry text
and the complete staged fragment lists (imports, fields, accessors, exports) of
all surviving candidates. -/
theorem updatePageFactory_write_discipline
    (cfg : ExtensionConfig) (fs : FSMap) (pfPath : Str) (files : List QuickFile)
    (content : Str) (r : UPFResult)
    (hc : readFile? fs pfPath = some content)
    (hu : updatePageFactory cfg fs pfPath files = some r) :
    ((∀ f ∈ files, ∀ fc, readFile? fs f.description = some fc →
        candidateDup cfg content pfPath f fc = true) →
      r.fsOut = fs ∧ r.writes = []) ∧
    ((∃ f ∈ files, ∃ fc, readFile? fs f.description = some fc ∧
        candidateDup cfg content pfPath f fc = false) →
      r.writes = [(pfPath,
          assembledContent content (stagedOf cfg fs pfPath content files))] ∧
      r.fsOut = writeFile fs pfPath
          (assembledContent content (stagedOf cfg fs pfPath content files))) := by
  simp only [updatePageFactory, hc] at hu
  cases hps : processCandidates cfg fs pfPath content files with
  | none => rw [hps] at hu; cases hu
  | some st =>
    have hst := processCandidates_eq hps
    subst hst
    simp only [hps] at hu
    split at hu
    next hEmpty =>
      injection hu with hu
      subst hu
      constructor
      · intro _; exact ⟨rfl, rfl⟩
      · intro hs
        exact absurd (List.isEmpty_iff.mp hEmpty)
          (stagedOf_imports_ne_nil_of_survivor hs)
    next hEmpty =>
      injection hu with hu
      subst hu
      constructor
      · intro hall
        exact absurd (List.isEmpty_iff.mpr (stagedOf_imports_eq_nil_of_allDup hall))
          hEmpty
      · intro _
        exact ⟨rfl, rfl⟩

/-- Concrete store for the write-discipline witness: an empty registry and one
fresh candidate class. -/
def c2wFs : FSMap :=
  [(strOf "/r/pf.ts", []),
   (strOf "/r/a.ts", strOf "export class A \x7b\x7d")]

/-- Witness for updatePageFactory_write_discipline: on the concrete store the
surviving candidate makes the call perform exactly one write. -/
theorem updatePageFactory_write_discipline_witness :
    ((updatePageFactory defaultConfig c2wFs (strOf "/r/pf.ts")
        [⟨strOf "a", strOf "/r/a.ts"⟩]).map (fun r => r.writes.length)) = some 1 := by
  cases hu : updatePageFactory defaultConfig c2wFs (strOf "/r/pf.ts")
      [⟨strOf "a", strOf "/r/a.ts"⟩] with
  | none => exact absurd hu (by decide)
  | some r =>
    have h := (updatePageFactory_write_discipline defaultConfig c2wFs (strOf "/r/pf.ts")
        [⟨strOf "a", strOf "/r/a.ts"⟩] [] r (by decide) hu).2
      ⟨⟨strOf "a", strOf "/r/a.ts"⟩, by decide, strOf "export class A \x7b\x7d",
        by decide, by decide⟩
    simp [h.1]

/-- Modelled from the spec wording of C3: the named bindings of an import
statement are the comma-separated, whitespace-trimmed names between its
braces. -/
def specImportBindings (line : Str) : List Str :=
  ((((line.dropWhile (fun c => c != Char.ofNat 123)).drop 1).takeWhile
    (fun c => c != Char.ofNat 125)).splitOn ',').map jsTrim

/-- Modelled from the spec wording of C3: the class name appears among the named
bindings of some existing import statement of the registry text. -/
def specBindingListed (content cls : Str) : Bool :=
  (extractExistingImports content).any (fun imp => (specImportBindings imp).contains cls)

/-- C3 counterexample.  The registry text imports LoginPage inside a
comma-separated binding list and has no private fields, and the candidate file
resolves to the class name LoginPage, so the claim says the candidate is
skipped; updatePageFactory skips nothing and adds it. -/
theorem updatePageFactory_skip_cex :
    specBindingListed (strOf "import \x7b A, LoginPage \x7d from \x27./x\x27;\n")
      (strOf "LoginPage") = true ∧
    extractExistingProperties
      (strOf "import \x7b A, LoginPage \x7d from \x27./x\x27;\n") = [] ∧
    ((updatePageFactory defaultConfig
        [(strOf "/r/pf.ts", strOf "import \x7b A, LoginPage \x7d from \x27./x\x27;\n"),
         (strOf "/r/login.ts", strOf "export class LoginPage \x7b\x7d\n")]
        (strOf "/r/pf.ts")
        [⟨strOf "login", strOf "/r/login.ts"⟩]).map
      (fun r => (r.skipped, r.addedCount))) = some ([], 1) := by decide

/-- C3 as amended.  A candidate's class name is recorded as skipped exactly when
the code-level duplicate check fires for it: some extracted import line equals
its generated import statement or contains the exact substring
"\x7b ClassName \x7d" (single binding, single spaces), or its field name is
among the extracted private-field names; the skipped list is precisely the
resolved class names of the candidates this condition selects, in candidate
order.  Appearing inside a comma-separated binding list does not by itself
cause a skip. -/
theorem updatePageFactory_skipped_eq
    (cfg : ExtensionConfig) (fs : FSMap) (pfPath : Str) (files : List QuickFile)
    (content : Str) (r : UPFResult)
    (hc : readFile? fs pfPath = some content)
    (hu : updatePageFactory cfg fs pfPath files = some r) :
    r.skipped = files.filterMap (skippedNameOf cfg fs pfPath content) := by
  simp only [updatePageFactory, hc] at hu
  cases hps : processCandidates cfg fs pfPath content files with
  | none => rw [hps] at hu; cases hu
  | some st =>
    have hst := processCandidates_eq hps
    subst hst
    simp only [hps] at hu
    split at hu
    next =>
      injection hu with hu
      subst hu
      simp [stagedOf]
    next =>
      injection hu with hu
      subst hu
      simp [stagedOf]

/-- Witness for updatePageFactory_skipped_eq: one duplicate and one fresh
candidate; only the duplicate's class name is reported as skipped. -/
theorem updatePageFactory_skipped_eq_witness :
    ((updatePageFactory defaultConfig
        [(strOf "/r/pf.ts", strOf "import \x7b A \x7d from \x27./a\x27;\n"),
         (strOf "/r/a.ts", strOf "export class A \x7b\x7d"),
         (strOf "/r/b.ts", strOf "export class B \x7b\x7d")]
        (strOf "/r/pf.ts")
        [⟨strOf "a", strOf "/r/a.ts"⟩, ⟨strOf "b", strOf "/r/b.ts"⟩]).map
      UPFResult.skipped) = some [strOf "A"] := by
  cases hu : updatePageFactory defaultConfig
      [(strOf "/r/pf.ts", strOf "import \x7b A \x7d from \x27./a\x27;\n"),
       (strOf "/r/a.ts", strOf "export class A \x7b\x7d"),
       (strOf "/r/b.ts", strOf "export class B \x7b\x7d")]
      (strOf "/r/pf.ts")
      [⟨strOf "a", strOf "/r/a.ts"⟩, ⟨strOf "b", strOf "/r/b.ts"⟩] with
  | none => exact absurd hu (by decide)
  | some r =>
    have h := updatePageFactory_skipped_eq defaultConfig _ _ _
      (strOf "import \x7b A \x7d from \x27./a\x27;\n") r (by decide) hu
    simp only [Option.map_some']
    rw [h]
    decide

set_option maxRecDepth 4000 in
/-- C1 counterexample.  A registry text in which the last import line's text
occurs earlier inside another line and which has no private-field anchor: the
first application splices the new import mid-line and drops the field
declaration, so the second application detects nothing, skips nothing, and
writes a different file again. -/
theorem updatePageFactory_idempotence_cex :
    ((updatePageFactory defaultConfig
        [(strOf "/r/pf.ts", strOf "ximport a!\nimport a\n"),
         (strOf "/r/foo.ts", strOf "export class Foo \x7b\x7d\n")]
        (strOf "/r/pf.ts") [⟨strOf "foo", strOf "/r/foo.ts"⟩]).bind (fun r1 =>
      (updatePageFactory defaultConfig r1.fsOut (strOf "/r/pf.ts")
        [⟨strOf "foo", strOf "/r/foo.ts"⟩]).map (fun r2 =>
        (r2.skipped, r2.addedCount,
         readFile? r2.fsOut (strOf "/r/pf.ts") == readFile? r1.fsOut (strOf "/r/pf.ts"))))) =
    some ([], 1, false) := by decide

set_option maxRecDepth 8000 in
set_option maxHeartbeats 4000000 in
/-- C1 as amended.  Idempotence holds on the generated registry shape: on the
registry text generatePageFactoryTemplate produces, applying updatePageFactory
twice with the same candidate set leaves the store byte-identical after the
second application, which performs no write, reports the candidate class as
skipped and adds nothing (the first application adds exactly the one class and
skips none); on arbitrary hand-crafted registry texts the second application
can re-add the same class (see the counterexample). -/
theorem updatePageFactory_idempotent_on_template :
    ((updatePageFactory defaultConfig
        [(strOf "/proj/pages/PageFactory.ts", generatePageFactoryTemplate),
         (strOf "/proj/pages/login.page.ts", strOf "export class LoginPage \x7b\x7d\n")]
        (strOf "/proj/pages/PageFactory.ts")
        [⟨strOf "login", strOf "/proj/pages/login.page.ts"⟩]).bind (fun r1 =>
      (updatePageFactory defaultConfig r1.fsOut (strOf "/proj/pages/PageFactory.ts")
        [⟨strOf "login", strOf "/proj/pages/login.page.ts"⟩]).map (fun r2 =>
        (r1.addedCount == 1) && r1.skipped.isEmpty && (r2.fsOut == r1.fsOut) &&
        r2.writes.isEmpty && (r2.skipped == [strOf "LoginPage"]) &&
        (r2.addedCount == 0)))) =
    some true := by
  decide

/-- C4 counterexample.  The registry imports Foo and declares no accessor at
all (the typed-getter scan finds nothing), yet detectCircularReference returns
"getFoo", because the case-insensitive convention fallback fires on the call
text "budgetFoo()". -/
theorem detectCircularReference_cex :
    findTypedGetter?
      (strOf "import \x7b Foo \x7d from \x27./foo\x27;\nconst x = budgetFoo();\n")
      (strOf "Foo") = none ∧
    detectCircularReference
      [(strOf "/w/pf.ts",
        strOf "import \x7b Foo \x7d from \x27./foo\x27;\nconst x = budgetFoo();\n"),
       (strOf "/w/foo.ts", strOf "export class Foo \x7b\x7d\n")]
      (strOf "/w/foo.ts") (strOf "/w/pf.ts") = some (strOf "getFoo") := by decide

/-- C4 as amended.  For a helper file declaring class Foo and a registry whose
text imports Foo and declares an accessor getFoo(): Foo, detectCircularReference
returns "getFoo"; and it returns null for every registry whose text matches
neither the typed-getter pattern (get\w+)\s*\([^)]*\)\s*:\s*Foo nor the
case-insensitive convention pattern getFoo\s*\( — merely importing Foo never
suffices, but a registry with no accessor returning Foo can still be flagged
through the convention fallback (see the counterexample). -/
theorem detectCircularReference_behavior :
    (detectCircularReference
      [(strOf "/w/pf.ts",
        strOf "import \x7b Foo \x7d from \x27./foo\x27;\nclass R \x7b\n  public getFoo(): Foo \x7b\x7d\n\x7d\n"),
       (strOf "/w/foo.ts", strOf "export class Foo \x7b\x7d\n")]
      (strOf "/w/foo.ts") (strOf "/w/pf.ts") = some (strOf "getFoo")) ∧
    (∀ (fs : FSMap) (helperPath registryPath pfc cfc cls : Str),
      readFile? fs registryPath = some pfc →
      readFile? fs helperPath = some cfc →
      matchExportClass? cfc = some cls →
      findTypedGetter? pfc cls = none →
      findConvGetter? pfc cls = none →
      detectCircularReference fs helperPath registryPath = none) := by
  constructor
  · decide
  · intro fs helperPath registryPath pfc cfc cls h1 h2 h3 h4 h5
    simp only [detectCircularReference, h1, h2, h3]
    cases hasCircularImport pfc cls with
    | false => simp
    | true => simp [h4, h5]

/-- Witness for detectCircularReference_behavior: its null-case applied to a
registry that imports Foo but matches neither getter pattern. -/
theorem detectCircularReference_behavior_witness :
    detectCircularReference
      [(strOf "/w/pf.ts", strOf "import \x7b Foo \x7d from \x27./foo\x27;\n"),
       (strOf "/w/foo.ts", strOf "export class Foo \x7b\x7d\n")]
      (strOf "/w/foo.ts") (strOf "/w/pf.ts") = none := by
  exact detectCircularReference_behavior.2 _ _ _
    (strOf "import \x7b Foo \x7d from \x27./foo\x27;\n")
    (strOf "export class Foo \x7b\x7d\n") (strOf "Foo")
    (by decide) (by decide) (by decide) (by decide) (by decide)

/-- The tree /a/b/\x7bregistry.ts, c/\x7d with the registry named registry.ts
(the file content is the full generated registry text). -/
def nestTreeRenamed : FSEntries :=
  .cons (.dir (strOf "a")
    (.cons (.dir (strOf "b")
      (.cons (.file (strOf "registry.ts") (some generatePageFactoryTemplate))
        (.cons (.dir (strOf "c") .nil) .nil))) .nil)) .nil

/-- The same tree with the registry named PageFactory.ts. -/
def nestTreeNamed : FSEntries :=
  .cons (.dir (strOf "a")
    (.cons (.dir (strOf "b")
      (.cons (.file (strOf "PageFactory.ts") (some generatePageFactoryTemplate))
        (.cons (.dir (strOf "c") .nil) .nil))) .nil)) .nil

set_option maxRecDepth 4000 in
/-- C5 counterexample.  With the registry file at /a/b/registry.ts (a name not
containing "PageFactory", content the full generated registry),
checkForPageFactoryNesting reports no ancestor registry from /a/b/c and no
descendant registry from /a: the check matches names, not content. -/
theorem checkForPageFactoryNesting_cex :
    ((checkForPageFactoryNesting defaultConfig nestTreeRenamed (strOf "/a/b/c")).map
      (fun r => (r.hasParentPageFactory, r.hasChildPageFactory)) = some (false, false)) ∧
    ((checkForPageFactoryNesting defaultConfig nestTreeRenamed (strOf "/a")).map
      (fun r => (r.hasParentPageFactory, r.hasChildPageFactory)) = some (false, false)) := by
  decide

set_option maxRecDepth 4000 in
/-- C5 as amended.  For a registry file at /a/b/PageFactory.ts — a name that
contains "PageFactory" and ends with the configured registry extension — the
nesting check called on /a/b/c reports an ancestor registry at
/a/b/PageFactory.ts, and called on /a reports the same file as a descendant;
a registry file whose name lacks the "PageFactory" marker is not detected at
all, whatever its content (see the counterexample). -/
theorem checkForPageFactoryNesting_on_named_registry :
    ((checkForPageFactoryNesting defaultConfig nestTreeNamed (strOf "/a/b/c")).map
      (fun r => (r.hasParentPageFactory, r.parentPath == some (strOf "/a/b/PageFactory.ts"))) =
      some (true, true)) ∧
    ((checkForPageFactoryNesting defaultConfig nestTreeNamed (strOf "/a")).map
      (fun r => (r.hasChildPageFactory, r.childPath == some (strOf "/a/b/PageFactory.ts"))) =
      some (true, true)) := by
  decide

/-- C6 counterexample.  A registry whose content carries every generated
signature but whose filename is registry.ts: the helper-scan classifier accepts
it by content, yet findPageFactory — the registry lookup — never returns it,
because that lookup matches on the filename alone and never reads content. -/
theorem findPageFactory_content_cex :
    isPageFactoryFile (strOf "registry.ts") (some generatePageFactoryTemplate) = true ∧
    findPageFactory defaultConfig (strOf "/ws") nestTreeRenamed = none := by decide

/-- C6 as amended.  Only the helper-file scan classifies by content: with
readable content isPageFactoryFile ignores the filename entirely and tests the
three structural signatures, and the filename fallback fires only when reading
throws; the registry lookup findPageFactory, by contrast, is purely
filename-based and returns a name-matched file regardless of its content (and
the nesting checks match filenames the same way). -/
theorem registryClassification_content_scope :
    (∀ (name₁ name₂ c : Str),
      isPageFactoryFile name₁ (some c) = isPageFactoryFile name₂ (some c)) ∧
    (∀ (name c : Str),
      isPageFactoryFile name (some c) =
        (containsStr c (strOf "class PageFactory") ||
         containsStr c (strOf "PageFactory.instance") ||
         containsStr c (strOf "export const pageFactory"))) ∧
    (∀ (name : Str),
      isPageFactoryFile name none = containsStr name (strOf "PageFactory")) ∧
    (findPageFactory defaultConfig (strOf "/ws")
      (.cons (.dir (strOf "sub")
        (.cons (.file (strOf "XPageFactory.ts") (some (strOf "junk"))) .nil)) .nil) =
      some (strOf "/ws/sub/XPageFactory.ts")) := by
  refine ⟨fun _ _ _ => rfl, fun _ _ => rfl, fun _ => rfl, by decide⟩

/-- Base-relative join of a run of path segments. -/
def joinList (base : Str) (segs : List Str) : Str := segs.foldl pathJoin base

mutual
theorem findPFWalkEntry_clean (cfg : ExtensionConfig) (cur : Str) (e : FSEntry)
    (p : Str) (hp : p ∈ findPFWalkEntry cfg cur e) :
    ∃ dirs fname, p = joinList cur (dirs ++ [fname]) ∧
      (∀ d ∈ dirs, skipDirName d = false) ∧ pfNameMatch cfg fname = true := by
  cases e with
  | file name content =>
    rw [findPFWalkEntry] at hp
    split at hp
    next hm =>
      refine ⟨[], name, ?_, by simp, hm⟩
      simp only [List.mem_singleton] at hp
      simp [hp, joinList]
    next => cases hp
  | dir name sub =>
    rw [findPFWalkEntry] at hp
    split at hp
    next hskip =>
      obtain ⟨dirs, fname, hjoin, hclean, hm⟩ :=
        findPFWalkList_clean cfg (pathJoin cur name) sub p hp
      refine ⟨name :: dirs, fname, ?_, ?_, hm⟩
      · simp [joinList, hjoin]
      · intro d hd
        cases hd with
        | head => simpa using hskip
        | tail _ h => exact hclean d h
    next =>
      split at hp
      next hm =>
        refine ⟨[], name, ?_, by simp, hm⟩
        simp only [List.mem_singleton] at hp
        simp [hp, joinList]
      next => cases hp
  | deniedDir name =>
    rw [findPFWalkEntry] at hp
    split at hp
    next => cases hp
    next =>
      split at hp
      next hm =>
        refine ⟨[], name, ?_, by simp, hm⟩
        simp only [List.mem_singleton] at hp
        simp [hp, joinList]
      next => cases hp

theorem findPFWalkList_clean (cfg : ExtensionConfig) (cur : Str) (es : FSEntries)
    (p : Str) (hp : p ∈ findPFWalkList cfg cur es) :
    ∃ dirs fname, p = joinList cur (dirs ++ [fname]) ∧
      (∀ d ∈ dirs, skipDirName d = false) ∧ pfNameMatch cfg fname = true := by
  cases es with
  | nil => rw [findPFWalkList] at hp; cases hp
  | cons e rest =>
    rw [findPFWalkList] at hp
    rcases List.mem_append.mp hp with h | h
    · exact findPFWalkEntry_clean cfg cur e p h
    · exact findPFWalkList_clean cfg cur rest p h
end

mutual
/-- Does the tree contain any directory whose listing throws. -/
def FSEntry.hasDenied : FSEntry → Bool
  | .file _ _ => false
  | .dir _ sub => sub.hasDenied
  | .deniedDir _ => true
def FSEntries.hasDenied : FSEntries → Bool
  | .nil => false
  | .cons e es => e.hasDenied || es.hasDenied
end

mutual
theorem findTSWalkEntry_denied (cfg : ExtensionConfig) (cur : Str) (e : FSEntry)
    (h : e.hasDenied = true) : findTSWalkEntry cfg cur e = none := by
  cases e with
  | file name content => cases h
  | dir name sub =>
    rw [findTSWalkEntry]
    exact findTSWalkList_denied cfg (pathJoin cur name) sub h
  | deniedDir name => rfl

theorem findTSWalkList_denied (cfg : ExtensionConfig) (cur : Str) (es : FSEntries)
    (h : es.hasDenied = true) : findTSWalkList cfg cur es = none := by
  cases es with
  | nil => cases h
  | cons e rest =>
    rw [findTSWalkList]
    rcases Bool.or_eq_true_iff.mp h with he | hr
    · rw [findTSWalkEntry_denied cfg cur e he]
    · cases hw : findTSWalkEntry cfg cur e with
      | none => rfl
      | some a => rw [findTSWalkList_denied cfg cur rest hr]
end

/-- A tree with one accessible directory holding a helper file and one
unreadable sibling directory. -/
def deniedSiblingTree : FSEntries :=
  .cons (.dir (strOf "ok")
      (.cons (.file (strOf "a.page.ts") (some (strOf "export class APage \x7b\x7d"))) .nil))
    (.cons (.deniedDir (strOf "locked")) .nil)

/-- C8 counterexample.  The helper-file walk findTSFiles aborts on the
unreadable subdirectory instead of returning the files of the accessible one,
and it does not skip node_modules: a helper file inside node_modules is
collected. -/
theorem findTSFiles_resilience_cex :
    findTSFiles defaultConfig (strOf "/ws") deniedSiblingTree = none ∧
    findTSFiles defaultConfig (strOf "/ws")
      (.cons (.dir (strOf "node_modules")
        (.cons (.file (strOf "x.page.ts") (some [])) .nil)) .nil) =
      some [strOf "/ws/node_modules/x.page.ts"] := by decide

/-- C8 as amended.  The skipping and error-swallowing belong to the
registry-lookup walk, not the helper-file walk: every path findPageFactory
returns reaches its name-matched final component through non-hidden,
non-node_modules directories only, and an unreadable directory is silently
skipped (on the concrete tree the file next to an unreadable sibling is still
found); the helper-file walk findTSFiles, by contrast, fails outright on every
tree containing an unreadable directory. -/
theorem walk_resilience_scope :
    (∀ (cfg : ExtensionConfig) (ws : Str) (es : FSEntries) (p : Str),
      findPageFactory cfg ws es = some p →
      ∃ dirs fname, p = joinList ws (dirs ++ [fname]) ∧
        (∀ d ∈ dirs, skipDirName d = false) ∧ pfNameMatch cfg fname = true) ∧
    (findPageFactory defaultConfig (strOf "/ws")
      (.cons (.deniedDir (strOf "locked"))
        (.cons (.dir (strOf "ok")
          (.cons (.file (strOf "MyPageFactory.ts") (some (strOf "junk"))) .nil)) .nil)) =
      some (strOf "/ws/ok/MyPageFactory.ts")) ∧
    (∀ (cfg : ExtensionConfig) (dirPath : Str) (es : FSEntries),
      es.hasDenied = true → findTSFiles cfg dirPath es = none) := by
  refine ⟨?_, by decide, ?_⟩
  · intro cfg ws es p hp
    rw [findPageFactory] at hp
    have hmem : p ∈ findPFWalkList cfg ws es :=
      List.mem_of_mem_head? (by rw [Option.mem_def, hp])
    exact findPFWalkList_clean cfg ws es p hmem
  · intro cfg dirPath es h
    exact findTSWalkList_denied cfg dirPath es h

/-- Witness for walk_resilience_scope: its clean-path part applied to the
concrete lookup next to an unreadable directory, and its abort part applied to
a concrete tree with an unreadable directory. -/
theorem walk_resilience_scope_witness :
    (∃ dirs fname,
      strOf "/ws/ok/MyPageFactory.ts" = joinList (strOf "/ws") (dirs ++ [fname]) ∧
      (∀ d ∈ dirs, skipDirName d = false) ∧ pfNameMatch defaultConfig fname = true) ∧
    findTSFiles defaultConfig (strOf "/x") (.cons (.deniedDir (strOf "l")) .nil) = none := by
  constructor
  · exact walk_resilience_scope.1 defaultConfig (strOf "/ws")
      (.cons (.deniedDir (strOf "locked"))
        (.cons (.dir (strOf "ok")
          (.cons (.file (strOf "MyPageFactory.ts") (some (strOf "junk"))) .nil)) .nil))
      (strOf "/ws/ok/MyPageFactory.ts") (by decide)
  · exact walk_resilience_scope.2.2 defaultConfig (strOf "/x")
      (.cons (.deniedDir (strOf "l")) .nil) (by decide)

/-- C7 counterexample.  An entry stored with label "custom": calling
addPageFactoryPath for its path with the label omitted replaces the stored
label by the parent-directory default "b" instead of preserving it. -/
theorem addPageFactoryPath_label_cex :
    addPageFactoryPath 10 [⟨strOf "/a/b/pf.ts", strOf "custom", 5⟩]
      (strOf "/a/b/pf.ts") none =
      [⟨strOf "/a/b/pf.ts", strOf "b", 10⟩] := by decide

theorem findIdx?_append_match (pre post : List SavedPath) (old : SavedPath)
    (fp : Str) (hmatch : (old.path == fp) = true)
    (hpre : ∀ q ∈ pre, (q.path == fp) = false) (i : Nat) :
    List.findIdx? (fun p => p.path == fp) (pre ++ old :: post) i =
      some (pre.length + i) := by
  induction pre generalizing i with
  | nil => simp [List.findIdx?_cons, hmatch]
  | cons q rest ih =>
    rw [List.cons_append, List.findIdx?_cons]
    simp only [hpre q (List.mem_cons_self q rest), Bool.false_eq_true, if_false]
    rw [ih (fun r hr => hpre r (List.mem_cons_of_mem _ hr)) (i + 1)]
    congr 1
    simp only [List.length_cons]
    omega

theorem set_append_len {α : Type} (pre post : List α) (old e : α) :
    (pre ++ old :: post).set pre.length e = pre ++ e :: post := by
  induction pre with
  | nil => rfl
  | cons q rest ih => simp [List.set, ih]

/-- C7 as amended.  When addPageFactoryPath is called for a path that already
has a saved entry and the label argument is omitted, the entry's last-used
timestamp is updated but its previously stored label is NOT preserved: the
whole entry is replaced and the label is reset to the parent-directory-name
default (the same default a newly inserted path receives); every other entry of
the list is left unchanged. -/
theorem addPageFactoryPath_upsert_resets_label
    (nowMs : Nat) (pre post : List SavedPath) (old : SavedPath) (fp : Str)
    (hmatch : (old.path == fp) = true)
    (hpre : ∀ q ∈ pre, (q.path == fp) = false) :
    addPageFactoryPath nowMs (pre ++ old :: post) fp none =
      pre ++ (⟨fp, baseName (dirname fp), nowMs⟩ : SavedPath) :: post := by
  simp only [addPageFactoryPath, findIdx?_append_match pre post old fp hmatch hpre 0,
    Nat.add_zero]
  exact set_append_len pre post old _

/-- Witness for addPageFactoryPath_upsert_resets_label: the concrete store with
one entry labelled "custom" comes back with the default label "b" and the new
timestamp. -/
theorem addPageFactoryPath_upsert_resets_label_witness :
    addPageFactoryPath 10 [⟨strOf "/a/b/x/pf.ts", strOf "mine", 5⟩]
      (strOf "/a/b/x/pf.ts") none =
      [⟨strOf "/a/b/x/pf.ts", strOf "x", 10⟩] := by
  have h := addPageFactoryPath_upsert_resets_label 10 [] []
    ⟨strOf "/a/b/x/pf.ts", strOf "mine", 5⟩ (strOf "/a/b/x/pf.ts")
    (by decide) (by intro q hq; cases hq)
  simpa using h

/-- C9.  Field/accessor key agreement: for every configuration (hence every
casing style) and every class name, stripping the property prefix from the
generated field name yields exactly the configured case transform of the base
identifier obtained by stripping "get" from the generated accessor name — both
names are keyed by the same case-transformed identifier derived from the class
name. -/
theorem fieldName_accessorName_agree (cfg : ExtensionConfig) (className : Str) :
    (mkPropertyName cfg className).drop cfg.propertyPref.length =
      classNameToPropertyCase cfg ((mkGetterName className).drop (strOf "get").length) := by
  simp only [mkPropertyName, mkGetterName, List.drop_left]

theorem spliceProperties_id_of_no_anchor (content : Str) (props : List Str)
    (h : findPropertyAnchors (splitNl content) = (-1, -1)) :
    spliceProperties content props = content := by
  rw [spliceProperties]
  split
  · rfl
  · simp only [h]
    simp [joinNl, splitNl, List.intercalate_splitOn]

/-- C10.  When the registry text (as spliced with the staged imports) has
neither a "private _globalPage: Page;" anchor line nor any other existing
private page-object field line, updatePageFactory still performs its single
write, whose content is the import splice followed directly by the getter
splice and the export append: the property-splice step leaves the text
unchanged, so the staged private field declarations are inserted nowhere and
are silently dropped from the written result. -/
theorem updatePageFactory_drops_properties_without_anchor
    (cfg : ExtensionConfig) (fs : FSMap) (pfPath : Str) (files : List QuickFile)
    (content : Str) (r : UPFResult)
    (hc : readFile? fs pfPath = some content)
    (hu : updatePageFactory cfg fs pfPath files = some r)
    (hs : ∃ f ∈ files, ∃ fc, readFile? fs f.description = some fc ∧
      candidateDup cfg content pfPath f fc = false)
    (hanchor : findPropertyAnchors (splitNl
        (spliceImports content (stagedOf cfg fs pfPath content files).imports)) =
      (-1, -1)) :
    r.writes = [(pfPath,
      appendExports
        (spliceGetters
          (spliceImports content (stagedOf cfg fs pfPath content files).imports)
          (stagedOf cfg fs pfPath content files).getters)
        (stagedOf cfg fs pfPath content files).exportsL)] ∧
    r.fsOut = writeFile fs pfPath
      (appendExports
        (spliceGetters
          (spliceImports content (stagedOf cfg fs pfPath content files).imports)
          (stagedOf cfg fs pfPath content files).getters)
        (stagedOf cfg fs pfPath content files).exportsL) := by
  simp only [updatePageFactory, hc] at hu
  cases hps : processCandidates cfg fs pfPath content files with
  | none => rw [hps] at hu; cases hu
  | some st =>
    have hst := processCandidates_eq hps
    subst hst
    simp only [hps] at hu
    split at hu
    next hEmpty =>
      exact absurd (List.isEmpty_iff.mp hEmpty)
        (stagedOf_imports_ne_nil_of_survivor hs)
    next hEmpty =>
      injection hu with hu
      subst hu
      rw [spliceProperties_id_of_no_anchor _ _ hanchor]
      exact ⟨rfl, rfl⟩

/-- The concrete store of the no-anchor witness: a registry text with a single
top import line and no private fields, plus one fresh candidate class. -/
def c10Fs : FSMap :=
  [(strOf "/r/pf.ts", strOf "import \x7b Z \x7d from \x27./z\x27;\n"),
   (strOf "/r/a.ts", strOf "export class A \x7b\x7d")]

/-- Witness for updatePageFactory_drops_properties_without_anchor at the
concrete anchorless store. -/
theorem updatePageFactory_drops_properties_without_anchor_witness :
    ((updatePageFactory defaultConfig c10Fs (strOf "/r/pf.ts")
        [⟨strOf "a", strOf "/r/a.ts"⟩]).map UPFResult.writes) =
      some [(strOf "/r/pf.ts",
        appendExports
          (spliceGetters
            (spliceImports (strOf "import \x7b Z \x7d from \x27./z\x27;\n")
              (stagedOf defaultConfig c10Fs (strOf "/r/pf.ts")
                (strOf "import \x7b Z \x7d from \x27./z\x27;\n")
                [⟨strOf "a", strOf "/r/a.ts"⟩]).imports)
            (stagedOf defaultConfig c10Fs (strOf "/r/pf.ts")
              (strOf "import \x7b Z \x7d from \x27./z\x27;\n")
              [⟨strOf "a", strOf "/r/a.ts"⟩]).getters)
          (stagedOf defaultConfig c10Fs (strOf "/r/pf.ts")
            (strOf "import \x7b Z \x7d from \x27./z\x27;\n")
            [⟨strOf "a", strOf "/r/a.ts"⟩]).exportsL)] := by
  cases hu : updatePageFactory defaultConfig c10Fs (strOf "/r/pf.ts")
      [⟨strOf "a", strOf "/r/a.ts"⟩] with
  | none => exact absurd hu (by decide)
  | some r =>
    have h := updatePageFactory_drops_properties_without_anchor defaultConfig c10Fs
      (strOf "/r/pf.ts") [⟨strOf "a", strOf "/r/a.ts"⟩]
      (strOf "import \x7b Z \x7d from \x27./z\x27;\n") r (by decide) hu
      ⟨⟨strOf "a", strOf "/r/a.ts"⟩, by decide, strOf "export class A \x7b\x7d",
        by decide, by decide⟩ (by decide)
    simp [h.1]

example : splitNl [] = [[]] := by decide
example : addPageFactoryPath 7 [] (strOf "/a/b/pf.ts") (some []) =
    [⟨strOf "/a/b/pf.ts", strOf "b", 7⟩] := by decide
example : extractExistingImports (strOf "import   \nfoo") = [strOf "import   \nfoo"] := by
  decide
example : mkImportStatement defaultConfig (strOf "/r/pf.ts") (strOf "/r/login.page.ts")
    (strOf "LoginPage") =
    strOf "import \x7b LoginPage \x7d from \x27./login.page\x27;" := by decide
